import Mathlib

/-!
Shallow embedding of `src/Code/Bertcls.py` (sarcasm-detection fine-tuning
script): dataset adapter, four classifier heads, training and evaluation
loops, and the best-accuracy checkpoint policy, together with proofs of the
specified properties.

External collaborators (the HuggingFace tokenizer, the pretrained BERT
encoder, the torch autodiff/optimizer machinery) are modelled as explicit
parameters or as functions satisfying the interface contract stated in the
spec; everything written in the script itself is translated directly.
-/

namespace Bertcls

/-! Basic tensor vocabulary.

Tensors are embedded as (nested) lists of rationals; token-id and
attention-mask tensors as (nested) lists of naturals; labels as integers
(torch `long`). -/

abbrev Vec := List ℚ
abbrev Mat := List Vec

/-- Dot product of two equally long vectors (`zipWith` truncates, matching
the well-formed case). -/
def dot (a b : Vec) : ℚ := (List.zipWith (· * ·) a b).sum

/-- Elementwise `torch.relu` on a vector. -/
def reluV (v : Vec) : Vec := v.map (fun x => max x 0)

/-- One row of `tensor.argmax(dim=1)`: index of the first maximal
entry (a left fold keeping the current best index, replaced only on a
strictly larger value). -/
def argmax (v : Vec) : ℕ :=
  (List.range v.length).foldl
    (fun best i => if v.getD best 0 < v.getD i 0 then i else best) 0

/-! Dataset adapter: `SarcasmDataset`. -/

/-- The external tokenizer collaborator resolved by
`AutoTokenizer.from_pretrained`.  Modelled from the spec's tokenizer
boundary contract: it turns text into a sequence of token ids, and owns the
special classifier / separator / padding ids used by `encode_plus`. -/
structure Tokenizer where
  tokenize : String → List ℕ
  clsId : ℕ
  sepId : ℕ
  padId : ℕ

/-- Result of `tokenizer.encode_plus(...)` restricted to the two fields the
script reads, already flattened to rank-1 as `__getitem__` does. -/
structure EncodedText where
  input_ids : List ℕ
  attention_mask : List ℕ

/-- Modelled from the spec: the external
`encode_plus(text, add_special_tokens=True, max_length, padding='max_length',
truncation=True, return_attention_mask=True)` call — prepend the classifier
token and append the separator token, truncate the result to `max_length`
entries, then pad with the padding id up to `max_length`; the attention mask
is 1 on kept positions and 0 on padding. -/
def encodePlus (t : Tokenizer) (text : String) (max_length : ℕ) : EncodedText :=
  let withSpecial : List ℕ := t.clsId :: (t.tokenize text ++ [t.sepId])
  let kept : List ℕ := withSpecial.take max_length
  { input_ids := kept ++ List.replicate (max_length - kept.length) t.padId
    attention_mask :=
      List.replicate kept.length 1 ++ List.replicate (max_length - kept.length) 0 }

/-- A `SarcasmDataset` after a successful `__init__`: the list of
`(headline, is_sarcastic)` pairs, the resolved tokenizer and the configured
maximum sequence length. -/
structure SarcasmDataset where
  data : List (String × ℤ)
  tokenizer : Tokenizer
  max_length : ℕ

/-- One item returned by `SarcasmDataset.__getitem__`. -/
structure Encoded where
  input_ids : List ℕ
  attention_mask : List ℕ
  labels : ℤ

/-- Indexed access `SarcasmDataset.__getitem__`: re-tokenize record `idx` with the stored
tokenizer and maximum length (`none` on an out-of-range index, where Python
raises `IndexError`). -/
def SarcasmDataset.getItem (d : SarcasmDataset) (idx : ℕ) : Option Encoded :=
  (d.data.get? idx).map fun (text, label) =>
    let e := encodePlus d.tokenizer text d.max_length
    { input_ids := e.input_ids
      attention_mask := e.attention_mask
      labels := label }

/-- Record count `SarcasmDataset.__len__`. -/
def SarcasmDataset.len (d : SarcasmDataset) : ℕ := d.data.length

/-! Dataset construction and its failures (`SarcasmDataset.__init__`).

`__init__` first resolves the tokenizer name through
`AutoTokenizer.from_pretrained` (raising if the identifier is
unresolvable), then reads the file line by line, calling `json.loads` on
each line (raising `JSONDecodeError` on invalid JSON) and indexing the
resulting object with `entry['headline']` and `entry['is_sarcastic']`
(raising `KeyError` on a missing field).  The JSON library is external, so
a raw input line is modelled by what `json.loads` yields on it. -/

/-- A JSON value as far as the script observes it. -/
inductive JsonValue where
  | str (s : String)
  | int (n : ℤ)
  | other
deriving DecidableEq

/-- One line of the input file, as seen through `json.loads`: either the
line is not valid JSON, or it is and parses to an object with named
fields. -/
inductive RawLine where
  | malformed
  | obj (fields : List (String × JsonValue))

/-- Field access `entry[key]` on a parsed object. -/
def getField (fields : List (String × JsonValue)) (key : String) : Option JsonValue :=
  (fields.find? (fun kv => kv.1 = key)).map Prod.snd

/-- The two construction-time failure classes of `SarcasmDataset.__init__`. -/
inductive InitError where
  | configError
  | parseError
deriving DecidableEq

/-- Processing of one input line inside the `__init__` loop:
`entry = json.loads(line)` followed by
`(entry['headline'], entry['is_sarcastic'])`.  Invalid JSON or a missing
required field is a fatal parse-class error. -/
def readLine (l : RawLine) : Except InitError (JsonValue × JsonValue) :=
  match l with
  | .malformed => .error .parseError
  | .obj fields =>
    match getField fields "headline", getField fields "is_sarcastic" with
    | some h, some s => .ok (h, s)
    | _, _ => .error .parseError

/-- Construction `SarcasmDataset.__init__`: resolve the tokenizer identifier against the
external registry (`AutoTokenizer.from_pretrained`), then read every line;
the first failure aborts construction with no partial result. -/
def initDataset (registry : String → Option Tokenizer) (tokenizer_name : String)
    (lines : List RawLine) :
    Except InitError (Tokenizer × List (JsonValue × JsonValue)) :=
  match registry tokenizer_name with
  | none => .error .configError
  | some tok => (lines.mapM readLine).map (fun ds => (tok, ds))

/-! Checkpoint policy (`main`, lines 169 and 185–187).

```
best_accuracy = 0
...
for epoch in range(epochs):
    ...
    if val_accuracy > best_accuracy:
        best_accuracy = val_accuracy
        torch.save(model.state_dict(), 'best_model.pt')
```

The persisted file `best_model.pt` is modelled as an `Option` snapshot
(`none` before the first write); `torch.save` overwrites it in place.  A
run's observable checkpoint behaviour is a function of the per-epoch
sequence of `(val_accuracy, state_dict)` pairs. -/

/-- State threaded through the epoch loop: the best-accuracy accumulator,
the current content of the fixed checkpoint file, and the number of
`torch.save` calls performed so far. -/
structure CkptState (S : Type) where
  best_accuracy : ℚ
  saved : Option S
  writes : ℕ

/-- The checkpoint decision at the end of one epoch (lines 185–187), for a
given validation accuracy and current parameter snapshot. -/
def ckptEpoch {S : Type} (st : CkptState S) (x : ℚ × S) : CkptState S :=
  if st.best_accuracy < x.1 then
    { best_accuracy := x.1, saved := some x.2, writes := st.writes + 1 }
  else st

/-- The whole epoch loop's effect on the checkpoint state, starting from
`best_accuracy = 0` and no checkpoint file. -/
def ckptRun {S : Type} (xs : List (ℚ × S)) : CkptState S :=
  xs.foldl ckptEpoch ⟨0, none, 0⟩

/-- Whether `torch.save` runs at (0-based) epoch `k` of the run on `xs`:
the write counter increases across that epoch. -/
def writesAt {S : Type} (xs : List (ℚ × S)) (k : ℕ) : Prop :=
  (ckptRun (xs.take (k + 1))).writes = (ckptRun (xs.take k)).writes + 1

/-- Spec-side predicate: epoch `k`'s validation accuracy strictly exceeds
every earlier epoch's validation accuracy and the zero initial value. -/
def strictRecord (accs : List ℚ) (k : ℕ) : Prop :=
  ((accs.take k).foldl max 0) < accs.getD k 0

instance (accs : List ℚ) (k : ℕ) : Decidable (strictRecord accs k) := by
  unfold strictRecord; infer_instance

instance {S : Type} (xs : List (ℚ × S)) (k : ℕ) : Decidable (writesAt xs k) := by
  unfold writesAt; infer_instance

/-- Epoch-end checkpoint decision with the possibility that `torch.save`
itself fails: the assignment `best_accuracy = val_accuracy` on line 186 is
executed before `torch.save` on line 187, so when the save raises, the
returned state has the advanced accumulator but the old file content, and
the flag records that the run aborted. -/
def ckptEpochSave {S : Type} (saveOk : Bool) (st : CkptState S) (x : ℚ × S) :
    CkptState S × Bool :=
  if st.best_accuracy < x.1 then
    let best' := x.1
    if saveOk then
      ({ best_accuracy := best', saved := some x.2, writes := st.writes + 1 }, false)
    else
      ({ best_accuracy := best', saved := st.saved, writes := st.writes }, true)
  else (st, false)

/-! Classifier heads.

Each head wraps the shared pretrained encoder (an external collaborator,
modelled from the spec's encoder boundary contract: per-token hidden
representations of a fixed width, plus a pooled summary representation) and
adds its own reduction and final linear projection.  Dropout is a
shape-preserving identity here: in evaluation mode it is the identity, and
the claims about the heads concern shapes and evaluation-mode behaviour. -/

/-- Modelled from the spec: the pretrained encoder collaborator
(`BertModel.from_pretrained`), acting per example.  `lastHidden` is one
example's `last_hidden_state` row block (sequence length × hidden width)
and `pooled` its `pooler_output` row; the contract fixes the output
shapes in terms of the input length and the hidden width. -/
structure BertEncoder where
  hidden_size : ℕ
  lastHidden : List ℕ → List ℕ → Mat
  pooled : List ℕ → List ℕ → Vec
  lastHidden_len : ∀ ids mask, (lastHidden ids mask).length = ids.length
  lastHidden_width : ∀ ids mask, ∀ r ∈ lastHidden ids mask, r.length = hidden_size
  pooled_len : ∀ ids mask, (pooled ids mask).length = hidden_size

/-- A `torch.nn.Linear` layer: a weight row per output feature and a bias
vector, applied as `W x + b`. -/
structure Linear where
  weight : Mat
  bias : Vec

/-- Application of a linear layer to one feature vector. -/
def Linear.apply (l : Linear) (x : Vec) : Vec :=
  List.zipWith (fun w b => dot w x + b) l.weight l.bias

/-- A `torch.nn.Conv2d(1, num_filters, (k, hidden_size))` bank as used by
`BertCNN`: each filter is a `k × hidden_size` kernel with a scalar bias. -/
structure Conv2dBank where
  k : ℕ
  filters : List Mat
  bias : Vec

/-- Value of one filter at one window position `t`: the kernel/input dot
product over the `k` rows starting at `t`. -/
def convWindow (ker : Mat) (x : Mat) (t : ℕ) : ℚ :=
  ((List.range ker.length).map (fun i => dot (ker.getD i []) (x.getD (t + i) []))).sum

/-- Maximum of a nonempty row, as `torch.max_pool1d(i, i.size(2))` computes
it over the whole window dimension (the empty case is unreachable behind
the size guard, where torch raises instead). -/
def maxPoolAll (r : Vec) : ℚ :=
  match r with
  | [] => 0
  | a :: rest => rest.foldl max a

/-- One conv bank's contribution in `BertCNN.forward`:
`torch.max_pool1d(torch.relu(conv(x)).squeeze(3), ·).squeeze(2)` for one
example, yielding one pooled feature per filter.  Torch raises when the
convolution output size `L - k + 1` would be non-positive, so the result
is `none` unless `1 ≤ k ∧ k ≤ L`. -/
def Conv2dBank.reluPool (c : Conv2dBank) (x : Mat) : Option Vec :=
  if 1 ≤ c.k ∧ c.k ≤ x.length then
    some (List.zipWith
      (fun ker b =>
        maxPoolAll (reluV ((List.range (x.length - c.k + 1)).map
          (fun t => convWindow ker x t + b))))
      c.filters c.bias)
  else none

/-- The `BertCNN` head: encoder, parallel conv banks, final projection. -/
structure BertCNN where
  bert : BertEncoder
  convs : List Conv2dBank
  fc : Linear

/-- One example of `BertCNN.forward`: encoder hidden states as a
single-channel grid, conv + relu + max-pool per bank, concatenation of the
pooled features, dropout (identity in evaluation mode), final projection. -/
def BertCNN.forwardOne (m : BertCNN) (ids mask : List ℕ) : Option Vec := do
  let x := m.bert.lastHidden ids mask
  let feats ← m.convs.mapM (fun c => c.reluPool x)
  pure (m.fc.apply feats.flatten)

/-- Forward pass of `BertCNN` on a batch (mapped over the examples of the
batch; `none` when torch would raise on any example). -/
def BertCNN.forward (m : BertCNN) (input_ids attention_mask : List (List ℕ)) :
    Option Mat :=
  (List.zip input_ids attention_mask).mapM (fun p => m.forwardOne p.1 p.2)

/-- The `BertMLP` head: encoder, hidden projection, output projection. -/
structure BertMLP where
  bert : BertEncoder
  fc1 : Linear
  fc2 : Linear

/-- One example of `BertMLP.forward`: pooled encoder output, hidden
projection with relu, dropout (identity in evaluation mode), output
projection. -/
def BertMLP.forwardOne (m : BertMLP) (ids mask : List ℕ) : Vec :=
  m.fc2.apply (reluV (m.fc1.apply (m.bert.pooled ids mask)))

/-- Forward pass of `BertMLP` on a batch. -/
def BertMLP.forward (m : BertMLP) (input_ids attention_mask : List (List ℕ)) : Mat :=
  (List.zip input_ids attention_mask).map (fun p => m.forwardOne p.1 p.2)

/-- Modelled from the spec: a torch recurrent layer (`nn.LSTM` or `nn.RNN`,
`batch_first=True`) as an external collaborator: a carried state of some
type `σ` (hidden state, plus the cell state for the LSTM), an initial
state, and a step producing one output row of width `hidden_size` per input
row. -/
structure Recurrent (σ : Type) where
  hidden_size : ℕ
  init : σ
  step : Vec → σ → Vec × σ
  step_len : ∀ x s, (step x s).1.length = hidden_size

/-- Per-token outputs of a recurrent layer run left to right over one
example's hidden-state rows. -/
def Recurrent.run {σ : Type} (r : Recurrent σ) (xs : Mat) : Mat :=
  (xs.foldl (fun st x => let hs := r.step x st.2; (st.1 ++ [hs.1], hs.2))
    (([] : Mat), r.init)).1

/-- Elementwise vector sum. -/
def vecAdd (a b : Vec) : Vec := List.zipWith (· + ·) a b

/-- Mean of the rows of a matrix, as `torch.mean(output, 1)` for one
example: sum the rows and divide by their number. -/
def meanRows (width : ℕ) (rows : Mat) : Vec :=
  (rows.foldl vecAdd (List.replicate width 0)).map (fun s => s / (rows.length : ℚ))

/-- The `BertLSTM` head: encoder, recurrent layer, final projection. -/
structure BertLSTM (σ : Type) where
  bert : BertEncoder
  lstm : Recurrent σ
  fc : Linear

/-- One example of `BertLSTM.forward`: recurrent layer over the hidden
states, mean over the token dimension, dropout (identity in evaluation
mode), final projection. -/
def BertLSTM.forwardOne {σ : Type} (m : BertLSTM σ) (ids mask : List ℕ) : Vec :=
  m.fc.apply (meanRows m.lstm.hidden_size (m.lstm.run (m.bert.lastHidden ids mask)))

/-- Forward pass of `BertLSTM` on a batch. -/
def BertLSTM.forward {σ : Type} (m : BertLSTM σ) (input_ids attention_mask : List (List ℕ)) :
    Mat :=
  (List.zip input_ids attention_mask).map (fun p => m.forwardOne p.1 p.2)

/-- The `BertRNN` head: encoder, recurrent layer, final projection. -/
structure BertRNN (σ : Type) where
  bert : BertEncoder
  rnn : Recurrent σ
  fc : Linear

/-- One example of `BertRNN.forward`: recurrent layer over the hidden
states, mean over the token dimension, dropout (identity in evaluation
mode), final projection. -/
def BertRNN.forwardOne {σ : Type} (m : BertRNN σ) (ids mask : List ℕ) : Vec :=
  m.fc.apply (meanRows m.rnn.hidden_size (m.rnn.run (m.bert.lastHidden ids mask)))

/-- Forward pass of `BertRNN` on a batch. -/
def BertRNN.forward {σ : Type} (m : BertRNN σ) (input_ids attention_mask : List (List ℕ)) :
    Mat :=
  (List.zip input_ids attention_mask).map (fun p => m.forwardOne p.1 p.2)

/-- Shape predicate for a rank-2 tensor embedded as a list of rows. -/
def shape2 (m : Mat) (rows cols : ℕ) : Prop :=
  m.length = rows ∧ ∀ r ∈ m, r.length = cols

/-! Training and evaluation loops (`train`, `evaluate`).

The model that the loops drive is abstracted to its forward function over
an explicit parameter state `P` (in the script the parameters live inside
the `nn.Module`); the criterion (`nn.CrossEntropyLoss()`), the autodiff
backward pass and the optimizer (`AdamW`) are external collaborators taken
as arguments.  The batch stream delivered by the `DataLoader` partitions
the dataset, so `len(dataloader.dataset)` is the sum of the batch sizes. -/

/-- One batch as the loops consume it: stacked token ids, attention masks
and labels of the examples in the batch. -/
structure Batch where
  input_ids : List (List ℕ)
  attention_mask : List (List ℕ)
  labels : List ℤ

/-- A classifier head abstracted to its forward function over an explicit
parameter state: `logits p ids mask` is one example's logits row. -/
structure Model (P : Type) where
  logits : P → List ℕ → List ℕ → Vec

/-- Loss function collaborator: `criterion(outputs, labels)` as a rational
(the script only ever reads `loss.item()`). -/
abbrev Criterion := Mat → List ℤ → ℚ

/-- Batch forward pass `model(input_ids, attention_mask)`: one logits row
per example. -/
def batchOutputs {P : Type} (M : Model P) (p : P) (b : Batch) : Mat :=
  List.zipWith (M.logits p) b.input_ids b.attention_mask

/-- Per-batch correct-prediction count
`(outputs.argmax(dim=1) == labels).sum().item()`. -/
def countCorrect (outputs : Mat) (labels : List ℤ) : ℕ :=
  (List.zip outputs labels).countP (fun ol => decide ((argmax ol.1 : ℤ) = ol.2))

/-- Size of the dataset behind a batch stream (`len(dataloader.dataset)`):
the loader partitions the dataset, one example per label. -/
def numExamples (batches : List Batch) : ℕ :=
  (batches.map (fun b => b.labels.length)).sum

/-- State accumulated by the `evaluate` loop: the (unmodified) model
parameters and the running loss and correct-prediction totals. -/
structure EvalState (P : Type) where
  params : P
  total_loss : ℚ
  total_correct : ℕ

/-- Body of the `evaluate` loop for one batch: forward pass and criterion
under `torch.no_grad()`, then accumulation of the totals; the parameters
are not touched. -/
def evalStep {P : Type} (M : Model P) (criterion : Criterion)
    (s : EvalState P) (b : Batch) : EvalState P :=
  let outputs := batchOutputs M s.params b
  let loss := criterion outputs b.labels
  { params := s.params
    total_loss := s.total_loss + loss
    total_correct := s.total_correct + countCorrect outputs b.labels }

/-- The `evaluate` function: fold the loop body over the batch stream, then
`avg_loss = total_loss / len(dataloader)` and
`accuracy = total_correct / len(dataloader.dataset)`.  The final state is
returned alongside; the metric pair is `none` exactly when Python would
raise `ZeroDivisionError` on one of the two divisions. -/
def evaluate {P : Type} (M : Model P) (criterion : Criterion) (p : P)
    (batches : List Batch) : EvalState P × Option (ℚ × ℚ) :=
  let s := batches.foldl (evalStep M criterion) ⟨p, 0, 0⟩
  (s,
    if batches.length = 0 ∨ numExamples batches = 0 then none
    else some (s.total_loss / (batches.length : ℚ),
               (s.total_correct : ℚ) / (numExamples batches : ℚ)))

/-- Optimizer and autodiff collaborators for the training loop: the cleared
gradient state (`optimizer.zero_grad()`), gradient accumulation
(`loss.backward()` adds the new gradient to the stored one), the backward
pass itself (`grad p b` is the gradient of the criterion composed with the
model at parameters `p` on batch `b`), and the optimizer update
(`optimizer.step()` maps optimizer state, parameters and accumulated
gradient to new optimizer state and parameters). -/
structure Optim (P G O : Type) where
  gzero : G
  gadd : G → G → G
  grad : P → Batch → G
  step : O → P → G → O × P

/-- State threaded through the `train` loop: parameters, optimizer state,
the gradient accumulator attached to the parameters, and the running loss
and correct-prediction totals. -/
structure TrainState (P G O : Type) where
  params : P
  opt : O
  gacc : G
  total_loss : ℚ
  total_correct : ℕ

/-- Body of the `train` loop for one batch, in the script's order:
`optimizer.zero_grad()`, forward pass, criterion, `loss.backward()`,
`optimizer.step()`, then accumulation of the totals. -/
def trainStep {P G O : Type} (M : Model P) (Opt : Optim P G O)
    (criterion : Criterion) (s : TrainState P G O) (b : Batch) : TrainState P G O :=
  let cleared := Opt.gzero
  let outputs := batchOutputs M s.params b
  let loss := criterion outputs b.labels
  let gacc := Opt.gadd cleared (Opt.grad s.params b)
  let op := Opt.step s.opt s.params gacc
  { params := op.2
    opt := op.1
    gacc := gacc
    total_loss := s.total_loss + loss
    total_correct := s.total_correct + countCorrect outputs b.labels }

/-- The `train` function: fold the loop body over the batch stream, then
the same two divisions as `evaluate`.  The final state is returned
alongside; the metric pair is `none` exactly when Python would raise
`ZeroDivisionError`. -/
def train {P G O : Type} (M : Model P) (Opt : Optim P G O) (criterion : Criterion)
    (p : P) (o : O) (g : G) (batches : List Batch) :
    TrainState P G O × Option (ℚ × ℚ) :=
  let s := batches.foldl (trainStep M Opt criterion) ⟨p, o, g, 0, 0⟩
  (s,
    if batches.length = 0 ∨ numExamples batches = 0 then none
    else some (s.total_loss / (batches.length : ℚ),
               (s.total_correct : ℚ) / (numExamples batches : ℚ)))

/-- Result of one training epoch, as the specification describes it. -/
structure EpochResult (P O : Type) where
  params : P
  opt : O
  loss_sum : ℚ
  correct : ℕ

/-- Specification-side description of one training epoch, written as a
direct recursion over the batch sequence: each batch contributes its
criterion value and correct count at the parameters current when it is
processed, and exactly one optimizer step driven by exactly that batch's
own gradient. -/
def trainSpec {P G O : Type} (M : Model P) (Opt : Optim P G O)
    (criterion : Criterion) : P → O → List Batch → EpochResult P O
  | p, o, [] => ⟨p, o, 0, 0⟩
  | p, o, b :: bs =>
    let outputs := batchOutputs M p b
    let op := Opt.step o p (Opt.grad p b)
    let r := trainSpec M Opt criterion op.2 op.1 bs
    ⟨r.params, r.opt, criterion outputs b.labels + r.loss_sum,
      countCorrect outputs b.labels + r.correct⟩

/-! Batch loader (`DataLoader(dataset, batch_size, shuffle)`): consecutive
fixed-size chunks of the (possibly shuffled) item sequence; the last chunk
may be smaller.  Modelled from the spec's batch-loader contract. -/

/-- Stacking of a chunk of dataset items into one batch. -/
def makeBatch (chunk : List Encoded) : Batch :=
  { input_ids := chunk.map (fun e => e.input_ids)
    attention_mask := chunk.map (fun e => e.attention_mask)
    labels := chunk.map (fun e => e.labels) }

/-- Chunking of an item sequence into batches of `batch_size` (last batch
possibly smaller). -/
def dataLoaderBatches (batch_size : ℕ) (items : List Encoded) : List Batch :=
  if h : batch_size = 0 then []
  else
    match items with
    | [] => []
    | x :: rest =>
      makeBatch ((x :: rest).take batch_size) ::
        dataLoaderBatches batch_size ((x :: rest).drop batch_size)
termination_by items.length
decreasing_by
  have h1 : 1 ≤ batch_size := Nat.one_le_iff_ne_zero.mpr h
  simp [List.length_drop]
  omega

/-- The item sequence a `SarcasmDataset` presents to the loader: item `i`
is `__getitem__(i)`. -/
def SarcasmDataset.items (d : SarcasmDataset) : List Encoded :=
  d.data.map fun (text, label) =>
    let e := encodePlus d.tokenizer text d.max_length
    { input_ids := e.input_ids
      attention_mask := e.attention_mask
      labels := label }

/-! Concrete instances used to exercise the theorems on closed inputs. -/

/-- A tiny concrete tokenizer instance. -/
def tokW : Tokenizer :=
  { tokenize := fun s => (List.range s.length).map (fun i => i + 10)
    clsId := 101
    sepId := 102
    padId := 0 }

/-- A one-record dataset with a small maximum length. -/
def d5W : SarcasmDataset := ⟨[("a", 0)], tokW, 3⟩

/-- The encoded example of `d5W` at index 0. -/
def e5W : Encoded := (d5W.getItem 0).getD ⟨[], [], 0⟩

/-- The two-record dataset of the example scenario, with the script's
default maximum length. -/
def d2W : SarcasmDataset := ⟨[("a", 0), ("b", 1)], tokW, 128⟩

/-- A concrete tokenizer registry resolving only one name. -/
def registryW : String → Option Tokenizer :=
  fun n => if n = "bert-base-uncased" then some tokW else none

/-- A line whose object is missing the label field. -/
def lineMissingW : RawLine := RawLine.obj [("headline", JsonValue.str "x")]

/-- A well-formed input line. -/
def lineGoodW : RawLine :=
  RawLine.obj [("headline", JsonValue.str "x"), ("is_sarcastic", JsonValue.int 0)]

/-- A concrete encoder instance with hidden width 1 producing zero
representations. -/
def constBert : BertEncoder :=
  { hidden_size := 1
    lastHidden := fun ids _ => ids.map (fun _ => [0])
    pooled := fun _ _ => [0]
    lastHidden_len := by intro ids mask; simp
    lastHidden_width := by
      intro ids mask r hr
      rcases List.mem_map.mp hr with ⟨a, _, rfl⟩
      rfl
    pooled_len := by intro ids mask; rfl }

/-- A concrete `BertCNN` instance: one filter of width 3, two classes. -/
def cnnW : BertCNN :=
  { bert := constBert
    convs := [⟨3, [[[1], [1], [1]]], [0]⟩]
    fc := ⟨[[1], [1]], [0, 0]⟩ }

/-- A concrete `BertMLP` instance with two classes. -/
def mlpW : BertMLP :=
  { bert := constBert
    fc1 := ⟨[[1]], [0]⟩
    fc2 := ⟨[[1], [1]], [0, 0]⟩ }

/-- A concrete recurrent-layer instance of width 1. -/
def recW : Recurrent Unit :=
  { hidden_size := 1
    init := ()
    step := fun _ _ => ([0], ())
    step_len := fun _ _ => rfl }

/-- A concrete `BertLSTM` instance with two classes. -/
def lstmW : BertLSTM Unit := ⟨constBert, recW, ⟨[[1], [1]], [0, 0]⟩⟩

/-- A concrete `BertRNN` instance with two classes. -/
def rnnW : BertRNN Unit := ⟨constBert, recW, ⟨[[1], [1]], [0, 0]⟩⟩

/-- A concrete model over natural-number parameters, always emitting the
logits row `[1, 0]`. -/
def modelW : Model ℕ := ⟨fun _ _ _ => [1, 0]⟩

/-- A concrete criterion valuing every batch at 1. -/
def critW : Criterion := fun _ _ => 1

/-- A concrete optimizer collaborator over natural numbers. -/
def optimW : Optim ℕ ℕ ℕ := ⟨0, (· + ·), fun _ _ => 1, fun o p g => (o + 1, p + g)⟩

/-- A concrete two-example batch with labels 0 and 1. -/
def batchW : Batch := ⟨[[0], [1]], [[1], [1]], [0, 1]⟩

/-! Lemmas about the checkpoint policy. -/

lemma ckptEpoch_best {S : Type} (st : CkptState S) (x : ℚ × S) :
    (ckptEpoch st x).best_accuracy = max st.best_accuracy x.1 := by
  unfold ckptEpoch
  split
  · next h => simp [max_eq_right (le_of_lt h)]
  · next h => simp [max_eq_left (not_lt.mp h)]

lemma ckptEpoch_writes {S : Type} (st : CkptState S) (x : ℚ × S) :
    (ckptEpoch st x).writes =
      st.writes + (if st.best_accuracy < x.1 then 1 else 0) := by
  unfold ckptEpoch
  split <;> simp

lemma ckptFold_best {S : Type} :
    ∀ (xs : List (ℚ × S)) (st : CkptState S),
      (xs.foldl ckptEpoch st).best_accuracy =
        (xs.map Prod.fst).foldl max st.best_accuracy
  | [], _ => rfl
  | x :: xs, st => by
    rw [List.foldl_cons, ckptFold_best xs, List.map_cons, List.foldl_cons,
      ckptEpoch_best]

lemma ckptFold_writes_le {S : Type} :
    ∀ (xs : List (ℚ × S)) (st : CkptState S),
      st.writes ≤ (xs.foldl ckptEpoch st).writes
  | [], _ => le_refl _
  | x :: xs, st => by
    rw [List.foldl_cons]
    refine le_trans ?_ (ckptFold_writes_le xs (ckptEpoch st x))
    rw [ckptEpoch_writes]
    omega

lemma ckptFold_frozen {S : Type} :
    ∀ (xs : List (ℚ × S)) (st : CkptState S),
      (xs.foldl ckptEpoch st).writes = st.writes → xs.foldl ckptEpoch st = st
  | [], _, _ => rfl
  | x :: xs, st, h => by
    rw [List.foldl_cons] at h ⊢
    by_cases hx : st.best_accuracy < x.1
    · exfalso
      have h1 : (ckptEpoch st x).writes = st.writes + 1 := by
        rw [ckptEpoch_writes]
        simp [hx]
      have h2 := ckptFold_writes_le xs (ckptEpoch st x)
      omega
    · have heq : ckptEpoch st x = st := by
        unfold ckptEpoch
        simp [hx]
      rw [heq] at h ⊢
      exact ckptFold_frozen xs st h

lemma ckptRun_take_succ {S : Type} (xs : List (ℚ × S)) (d : ℚ × S) (k : ℕ)
    (hk : k < xs.length) :
    ckptRun (xs.take (k + 1)) = ckptEpoch (ckptRun (xs.take k)) (xs.getD k d) := by
  unfold ckptRun
  rw [List.take_succ, List.getElem?_eq_getElem hk]
  rw [show xs.getD k d = xs[k] by
    rw [List.getD_eq_getElem?_getD, List.getElem?_eq_getElem hk]; rfl]
  simp only [Option.toList_some, List.foldl_append, List.foldl_cons, List.foldl_nil]

lemma map_fst_getD {S : Type} (xs : List (ℚ × S)) (d : ℚ × S) (k : ℕ)
    (hk : k < xs.length) :
    (xs.map Prod.fst).getD k 0 = (xs.getD k d).1 := by
  rw [List.getD_eq_getElem?_getD, List.getD_eq_getElem?_getD, List.getElem?_map,
    List.getElem?_eq_getElem hk]
  rfl

lemma ckptRun_best_take {S : Type} (xs : List (ℚ × S)) (k : ℕ) :
    (ckptRun (xs.take k)).best_accuracy = ((xs.map Prod.fst).take k).foldl max 0 := by
  unfold ckptRun
  rw [ckptFold_best, List.map_take]

lemma ckptCond_iff {S : Type} (xs : List (ℚ × S)) (d : ℚ × S) (k : ℕ)
    (hk : k < xs.length) :
    ((ckptRun (xs.take k)).best_accuracy < (xs.getD k d).1) ↔
      strictRecord (xs.map Prod.fst) k := by
  unfold strictRecord
  rw [ckptRun_best_take, map_fst_getD xs d k hk]

lemma writesAt_iff_strictRecord {S : Type} (xs : List (ℚ × S)) (d : ℚ × S)
    (k : ℕ) (hk : k < xs.length) :
    writesAt xs k ↔ strictRecord (xs.map Prod.fst) k := by
  unfold writesAt
  rw [ckptRun_take_succ xs d k hk, ckptEpoch_writes]
  constructor
  · intro h
    rw [← ckptCond_iff xs d k hk]
    by_contra hc
    rw [if_neg hc] at h
    omega
  · intro h
    rw [← ckptCond_iff xs d k hk] at h
    rw [if_pos h]

lemma ckptRun_writes_count {S : Type} (xs : List (ℚ × S)) (d : ℚ × S) :
    ∀ m, m ≤ xs.length →
      (ckptRun (xs.take m)).writes =
        (List.range m).countP (fun k => decide (strictRecord (xs.map Prod.fst) k))
  | 0, _ => rfl
  | m + 1, hm => by
    have hmlt : m < xs.length := hm
    rw [ckptRun_take_succ xs d m hmlt, ckptEpoch_writes,
      ckptRun_writes_count xs d m (le_of_lt hmlt), List.range_succ,
      List.countP_append]
    by_cases hrec : strictRecord (xs.map Prod.fst) m
    · rw [if_pos ((ckptCond_iff xs d m hmlt).mpr hrec)]
      simp [List.countP_cons, hrec]
    · rw [if_neg (fun hc => hrec ((ckptCond_iff xs d m hmlt).mp hc))]
      simp [List.countP_cons, hrec]

/-- C1: across the epoch loop of `main`, a checkpoint is written at the end
of epoch `k` if and only if epoch `k`'s validation accuracy strictly
exceeds every earlier epoch's validation accuracy and the zero-initialized
best-so-far value; the total number of `torch.save` calls equals the number
of such strict-record epochs; and each write overwrites the single
checkpoint location, so after the last write the location holds exactly
that epoch's snapshot. -/
theorem checkpoint_iff_strict_improvement {S : Type} (xs : List (ℚ × S))
    (d : ℚ × S) :
    (∀ k, k < xs.length →
      (writesAt xs k ↔ strictRecord (xs.map Prod.fst) k)) ∧
    (ckptRun xs).writes =
      (List.range xs.length).countP
        (fun k => decide (strictRecord (xs.map Prod.fst) k)) ∧
    (∀ k, k < xs.length → writesAt xs k →
      (∀ j, k < j → j < xs.length → ¬ writesAt xs j) →
      (ckptRun xs).saved = some (xs.getD k d).2) := by
  refine ⟨fun k hk => writesAt_iff_strictRecord xs d k hk, ?_, ?_⟩
  · have h := ckptRun_writes_count xs d xs.length (le_refl _)
    rwa [List.take_length] at h
  · intro k hk hw hnone
    have hsucc := ckptRun_take_succ xs d k hk
    have hcond : (ckptRun (xs.take k)).best_accuracy < (xs.getD k d).1 :=
      (ckptCond_iff xs d k hk).mpr ((writesAt_iff_strictRecord xs d k hk).mp hw)
    have hsaved : (ckptRun (xs.take (k + 1))).saved = some (xs.getD k d).2 := by
      rw [hsucc]
      unfold ckptEpoch
      rw [if_pos hcond]
    have hsplit : ckptRun xs =
        (xs.drop (k + 1)).foldl ckptEpoch (ckptRun (xs.take (k + 1))) := by
      unfold ckptRun
      rw [← List.foldl_append, List.take_append_drop]
    have hwrites : (ckptRun xs).writes = (ckptRun (xs.take (k + 1))).writes := by
      have hn := ckptRun_writes_count xs d xs.length (le_refl _)
      rw [List.take_length] at hn
      have hk1 := ckptRun_writes_count xs d (k + 1) hk
      have hrange : List.range xs.length =
          List.range (k + 1) ++
            (List.range (xs.length - (k + 1))).map ((k + 1) + ·) := by
        rw [← List.range_add]
        congr 1
        omega
      have hzero : ((List.range (xs.length - (k + 1))).map ((k + 1) + ·)).countP
          (fun j => decide (strictRecord (xs.map Prod.fst) j)) = 0 := by
        rw [List.countP_eq_zero]
        intro j hj
        rcases List.mem_map.mp hj with ⟨i, hi, rfl⟩
        have hij : k < (k + 1) + i := by omega
        have hij2 : (k + 1) + i < xs.length := by
          have := List.mem_range.mp hi
          omega
        have hnw := hnone ((k + 1) + i) hij hij2
        rw [writesAt_iff_strictRecord xs d ((k + 1) + i) hij2] at hnw
        simpa using hnw
      rw [hn, hk1, hrange, List.countP_append, hzero]
      omega
    rw [hsplit] at hwrites ⊢
    rw [ckptFold_frozen (xs.drop (k + 1)) (ckptRun (xs.take (k + 1))) hwrites]
    exact hsaved

/-- Witness for C1 on the concrete accuracy sequence `[1, 2]` with
snapshots `0` and `1`: epoch 1 is a strict record, so it writes, and the
checkpoint location ends up holding snapshot `1`. -/
theorem checkpoint_iff_strict_improvement_witness :
    writesAt [((1 : ℚ), (0 : ℕ)), ((2 : ℚ), 1)] 1 ∧
    (ckptRun [((1 : ℚ), (0 : ℕ)), ((2 : ℚ), 1)]).saved = some 1 := by
  have h := checkpoint_iff_strict_improvement
    [((1 : ℚ), (0 : ℕ)), ((2 : ℚ), 1)] ((0 : ℚ), (0 : ℕ))
  have hw : writesAt [((1 : ℚ), (0 : ℕ)), ((2 : ℚ), 1)] 1 :=
    (h.1 1 (by norm_num)).mpr (by decide)
  exact ⟨hw, h.2.2 1 (by norm_num) hw (fun j h1 h2 => absurd h1 (by simp at h2; omega))⟩

/-- C10: when the current validation accuracy strictly exceeds the best
accuracy so far but the subsequent `torch.save` fails, the epoch step
leaves the best-accuracy accumulator already advanced to the new value
while the checkpoint location still holds its previous content, and the
run aborts: the update is not atomic because line 186 assigns the
accumulator before line 187 writes the snapshot. -/
theorem checkpoint_update_not_atomic {S : Type} (st : CkptState S) (x : ℚ × S)
    (h : st.best_accuracy < x.1) :
    ckptEpochSave false st x =
      ({ best_accuracy := x.1, saved := st.saved, writes := st.writes }, true) := by
  unfold ckptEpochSave
  simp [h]

/-- Witness for C10: best accuracy 0, incoming accuracy 1 with snapshot 7
and a failing save, starting from an empty checkpoint location. -/
theorem checkpoint_update_not_atomic_witness :
    ckptEpochSave false (⟨0, none, 0⟩ : CkptState ℕ) ((1 : ℚ), 7) =
      ({ best_accuracy := 1, saved := none, writes := 0 }, true) :=
  checkpoint_update_not_atomic ⟨0, none, 0⟩ ((1 : ℚ), 7) (by norm_num)

/-! Lemmas about the evaluation loop. -/

lemma eval_foldl {P : Type} (M : Model P) (criterion : Criterion) :
    ∀ (batches : List Batch) (s : EvalState P),
      batches.foldl (evalStep M criterion) s =
        ⟨s.params,
         s.total_loss +
           (batches.map (fun b => criterion (batchOutputs M s.params b) b.labels)).sum,
         s.total_correct +
           (batches.map (fun b => countCorrect (batchOutputs M s.params b) b.labels)).sum⟩
  | [], s => by simp
  | b :: bs, s => by
    rw [List.foldl_cons, eval_foldl M criterion bs]
    simp only [evalStep, List.map_cons, List.sum_cons, EvalState.mk.injEq]
    refine ⟨trivial, by ring, by omega⟩

lemma countCorrect_le (outputs : Mat) (labels : List ℤ) :
    countCorrect outputs labels ≤ labels.length := by
  unfold countCorrect
  refine le_trans (List.countP_le_length _) ?_
  rw [List.length_zip]
  exact min_le_right _ _

lemma sum_countCorrect_le {P : Type} (M : Model P) (p : P) (batches : List Batch) :
    (batches.map (fun b => countCorrect (batchOutputs M p b) b.labels)).sum ≤
      numExamples batches := by
  unfold numExamples
  induction batches with
  | nil => simp
  | cons b bs ih =>
    simp only [List.map_cons, List.sum_cons]
    exact Nat.add_le_add (countCorrect_le _ _) ih

/-- C2: whenever the evaluation loop returns a metric pair, its accuracy
component lies in `[0, 1]` and equals the number of examples whose
predicted class (`outputs.argmax(dim=1)`) equals their label, summed over
the batch sequence, divided by the total number of examples. -/
theorem evaluate_accuracy {P : Type} (M : Model P) (criterion : Criterion)
    (p : P) (batches : List Batch) (s : EvalState P) (l a : ℚ)
    (h : evaluate M criterion p batches = (s, some (l, a))) :
    0 ≤ a ∧ a ≤ 1 ∧
      a = ((batches.map
              (fun b => countCorrect (batchOutputs M p b) b.labels)).sum : ℚ) /
            (numExamples batches : ℚ) := by
  unfold evaluate at h
  rw [Prod.mk.injEq] at h
  rcases h with ⟨hs, hm⟩
  by_cases hc : batches.length = 0 ∨ numExamples batches = 0
  · rw [if_pos hc] at hm
    exact absurd hm (by simp)
  · rw [if_neg hc] at hm
    rw [Option.some.injEq, Prod.mk.injEq] at hm
    have hn : numExamples batches ≠ 0 := fun h0 => hc (Or.inr h0)
    have hcorrect :
        (batches.foldl (evalStep M criterion) ⟨p, 0, 0⟩).total_correct =
          (batches.map (fun b => countCorrect (batchOutputs M p b) b.labels)).sum := by
      rw [eval_foldl]
      simp
    have ha : a =
        ((batches.map (fun b => countCorrect (batchOutputs M p b) b.labels)).sum : ℚ) /
          (numExamples batches : ℚ) := by
      rw [← hm.2, hcorrect]
    refine ⟨?_, ?_, ha⟩
    · rw [ha]
      positivity
    · rw [ha]
      rw [div_le_one (by positivity)]
      exact_mod_cast sum_countCorrect_le M p batches

/-- Witness for C2 on a concrete two-example batch where exactly one
prediction is correct: the accuracy is 1/2. -/
theorem evaluate_accuracy_witness :
    0 ≤ (1 : ℚ) / 2 ∧ (1 : ℚ) / 2 ≤ 1 ∧
      (1 : ℚ) / 2 = (([batchW].map
          (fun b => countCorrect (batchOutputs modelW 7 b) b.labels)).sum : ℚ) /
        (numExamples [batchW] : ℚ) :=
  evaluate_accuracy modelW critW 7 [batchW]
    ((evaluate modelW critW 7 [batchW]).1) 1 (1 / 2)
    (by
      have h2 : (evaluate modelW critW 7 [batchW]).2 = some (1, 1 / 2) := by
        have hc : countCorrect
            (batchOutputs modelW 7 ⟨[[0], [1]], [[1], [1]], [0, 1]⟩) [0, 1] = 1 := by
          decide
        unfold evaluate
        rw [eval_foldl]
        norm_num [numExamples, batchW, critW, hc]
      rw [← h2])

/-- C3: the evaluation loop never mutates the model parameters — the
parameter state in the final loop state equals the initial one — and
re-running `evaluate` from the parameters left behind by a first run, with
no training step in between, produces the identical state and identical
(loss, accuracy) metrics. -/
theorem evaluate_preserves_params {P : Type} (M : Model P)
    (criterion : Criterion) (p : P) (batches : List Batch) :
    (evaluate M criterion p batches).1.params = p ∧
    evaluate M criterion ((evaluate M criterion p batches).1.params) batches =
      evaluate M criterion p batches := by
  have hp : (evaluate M criterion p batches).1.params = p := by
    unfold evaluate
    rw [eval_foldl]
  exact ⟨hp, by rw [hp]⟩

/-! Lemmas about the training loop. -/

lemma train_foldl {P G O : Type} (M : Model P) (Opt : Optim P G O)
    (criterion : Criterion) (hid : ∀ gr, Opt.gadd Opt.gzero gr = gr) :
    ∀ (batches : List Batch) (s : TrainState P G O),
      (batches.foldl (trainStep M Opt criterion) s).params =
          (trainSpec M Opt criterion s.params s.opt batches).params ∧
        (batches.foldl (trainStep M Opt criterion) s).opt =
          (trainSpec M Opt criterion s.params s.opt batches).opt ∧
        (batches.foldl (trainStep M Opt criterion) s).total_loss =
          s.total_loss + (trainSpec M Opt criterion s.params s.opt batches).loss_sum ∧
        (batches.foldl (trainStep M Opt criterion) s).total_correct =
          s.total_correct + (trainSpec M Opt criterion s.params s.opt batches).correct
  | [], s => by simp [trainSpec]
  | b :: bs, s => by
    have hstep : trainStep M Opt criterion s b =
        ⟨(Opt.step s.opt s.params (Opt.grad s.params b)).2,
         (Opt.step s.opt s.params (Opt.grad s.params b)).1,
         Opt.grad s.params b,
         s.total_loss + criterion (batchOutputs M s.params b) b.labels,
         s.total_correct + countCorrect (batchOutputs M s.params b) b.labels⟩ := by
      simp only [trainStep, hid]
    have ih := train_foldl M Opt criterion hid bs (trainStep M Opt criterion s b)
    rw [hstep] at ih
    rw [List.foldl_cons, hstep]
    simp only [trainSpec] at ih ⊢
    refine ⟨ih.1, ih.2.1, ?_, ?_⟩
    · rw [ih.2.2.1]
      ring
    · rw [ih.2.2.2]
      omega

/-- C4: one epoch of the training loop refines its specification-side
description: processing the batch sequence by, per batch, forward pass,
cross-entropy criterion, backward pass, exactly one optimizer step driven
by exactly that batch's own gradient (the accumulator is cleared before
each backward pass, so no gradient from an earlier batch leaks in), while
accumulating the loss sum and the correct-prediction count; at epoch end it
returns the pair (loss sum / number of batches, correct / total examples).
The hypothesis states the collaborator law that accumulating one gradient
into a cleared accumulator yields that gradient. -/
theorem train_epoch_refines {P G O : Type} (M : Model P) (Opt : Optim P G O)
    (criterion : Criterion) (p : P) (o : O) (g : G) (batches : List Batch)
    (hid : ∀ gr, Opt.gadd Opt.gzero gr = gr) :
    ((train M Opt criterion p o g batches).1.params =
        (trainSpec M Opt criterion p o batches).params ∧
      (train M Opt criterion p o g batches).1.opt =
        (trainSpec M Opt criterion p o batches).opt ∧
      (train M Opt criterion p o g batches).1.total_loss =
        (trainSpec M Opt criterion p o batches).loss_sum ∧
      (train M Opt criterion p o g batches).1.total_correct =
        (trainSpec M Opt criterion p o batches).correct) ∧
    (batches ≠ [] → numExamples batches ≠ 0 →
      (train M Opt criterion p o g batches).2 =
        some ((trainSpec M Opt criterion p o batches).loss_sum / (batches.length : ℚ),
          ((trainSpec M Opt criterion p o batches).correct : ℚ) /
            (numExamples batches : ℚ))) := by
  have hfold := train_foldl M Opt criterion hid batches ⟨p, o, g, 0, 0⟩
  rw [show (⟨p, o, g, 0, 0⟩ : TrainState P G O).params = p from rfl,
    show (⟨p, o, g, 0, 0⟩ : TrainState P G O).opt = o from rfl,
    show (⟨p, o, g, 0, 0⟩ : TrainState P G O).total_loss = 0 from rfl,
    show (⟨p, o, g, 0, 0⟩ : TrainState P G O).total_correct = 0 from rfl] at hfold
  have hcomp :
      (train M Opt criterion p o g batches).1 =
        batches.foldl (trainStep M Opt criterion) ⟨p, o, g, 0, 0⟩ := rfl
  constructor
  · rw [hcomp]
    refine ⟨hfold.1, hfold.2.1, ?_, ?_⟩
    · rw [hfold.2.2.1]
      ring
    · rw [hfold.2.2.2]
      omega
  · intro hne hex
    have hcond : ¬ (batches.length = 0 ∨ numExamples batches = 0) := by
      rw [not_or]
      exact ⟨fun h0 => hne (List.length_eq_zero.mp h0), hex⟩
    show (if batches.length = 0 ∨ numExamples batches = 0 then none
        else some
          ((batches.foldl (trainStep M Opt criterion) ⟨p, o, g, 0, 0⟩).total_loss /
              (batches.length : ℚ),
            ((batches.foldl (trainStep M Opt criterion) ⟨p, o, g, 0, 0⟩).total_correct : ℚ) /
              (numExamples batches : ℚ))) = _
    rw [if_neg hcond, hfold.2.2.1, hfold.2.2.2]
    norm_num

/-- Witness for C4 on a concrete one-batch stream, model, criterion and
optimizer: the returned metric pair is the specified one. -/
theorem train_epoch_refines_witness :
    (train modelW optimW critW 0 0 0 [batchW]).2 =
      some ((trainSpec modelW optimW critW 0 0 [batchW]).loss_sum /
          (([batchW].length : ℕ) : ℚ),
        ((trainSpec modelW optimW critW 0 0 [batchW]).correct : ℚ) /
          ((numExamples [batchW] : ℕ) : ℚ)) :=
  (train_epoch_refines modelW optimW critW 0 0 0 [batchW]
      (fun gr => by simp [optimW])).2
    (by simp) (by simp [numExamples, batchW])

/-- C9: both loops divide the accumulated loss by the number of batches and
the correct count by the number of dataset examples; on any batch stream
with at least one batch (and no empty batch, as the loader yields none)
both loops return a metric pair, while on the empty dataset — zero batches,
zero examples — both loops hit `ZeroDivisionError` and return no metric
pair. -/
theorem loops_division_by_zero {P G O : Type} (M : Model P) (Opt : Optim P G O)
    (criterion : Criterion) (p : P) (o : O) (g : G) (batches : List Batch) :
    ((batches ≠ [] ∧ ∀ b ∈ batches, b.labels ≠ []) →
      ((train M Opt criterion p o g batches).2.isSome ∧
        (evaluate M criterion p batches).2.isSome)) ∧
    (train M Opt criterion p o g ([] : List Batch)).2 = none ∧
    (evaluate M criterion p ([] : List Batch)).2 = none := by
  refine ⟨?_, ?_, ?_⟩
  · rintro ⟨hne, hlab⟩
    have hcond : ¬ (batches.length = 0 ∨ numExamples batches = 0) := by
      rw [not_or]
      refine ⟨fun h0 => hne (List.length_eq_zero.mp h0), fun h0 => ?_⟩
      rcases List.exists_mem_of_ne_nil batches hne with ⟨b0, hb0⟩
      have hall := (List.sum_eq_zero_iff).mp h0
      have hz : b0.labels.length = 0 :=
        hall _ (List.mem_map.mpr ⟨b0, hb0, rfl⟩)
      exact hlab b0 hb0 (List.length_eq_zero.mp hz)
    constructor
    · show (if batches.length = 0 ∨ numExamples batches = 0 then none
          else some _).isSome
      rw [if_neg hcond]
      rfl
    · show (if batches.length = 0 ∨ numExamples batches = 0 then none
          else some _).isSome
      rw [if_neg hcond]
      rfl
  · rfl
  · rfl

/-- Witness for C9 on a concrete nonempty one-batch stream: both loops
return a metric pair. -/
theorem loops_division_by_zero_witness :
    (train modelW optimW critW 0 0 0 [batchW]).2.isSome ∧
      (evaluate modelW critW 0 [batchW]).2.isSome :=
  (loops_division_by_zero modelW optimW critW 0 0 0 [batchW]).1
    ⟨by simp, by simp [batchW]⟩

/-! Lemmas about the batch loader. -/

lemma dataLoaderBatches_nil (batch_size : ℕ) :
    dataLoaderBatches batch_size [] = [] := by
  rw [dataLoaderBatches]
  split <;> rfl

lemma dataLoaderBatches_cons (batch_size : ℕ) (h : batch_size ≠ 0)
    (x : Encoded) (rest : List Encoded) :
    dataLoaderBatches batch_size (x :: rest) =
      makeBatch ((x :: rest).take batch_size) ::
        dataLoaderBatches batch_size ((x :: rest).drop batch_size) := by
  rw [dataLoaderBatches]
  simp [h]

/-- C7: on the two-record dataset of headlines "a" (label 0) and "b"
(label 1), with batch size 2 and one epoch, the training loop processes
exactly one batch of two examples and returns a metric pair whose accuracy
is 0, 1/2 or 1; the item sequence is quantified over every shuffle
(permutation) the loader may choose. -/
theorem two_record_scenario {P G O : Type} (t : Tokenizer) (M : Model P)
    (Opt : Optim P G O) (criterion : Criterion) (p : P) (o : O) (g : G)
    (items2 : List Encoded)
    (hperm : items2.Perm (SarcasmDataset.items ⟨[("a", 0), ("b", 1)], t, 128⟩)) :
    (dataLoaderBatches 2 items2).length = 1 ∧
    (∀ b ∈ dataLoaderBatches 2 items2, b.labels.length = 2) ∧
    ∃ l a, (train M Opt criterion p o g (dataLoaderBatches 2 items2)).2 = some (l, a) ∧
      (a = 0 ∨ a = 1 / 2 ∨ a = 1) := by
  have hlen : items2.length = 2 := by
    rw [hperm.length_eq]
    simp [SarcasmDataset.items]
  rcases List.length_eq_two.mp hlen with ⟨e0, e1, rfl⟩
  have hbatches : dataLoaderBatches 2 [e0, e1] = [makeBatch [e0, e1]] := by
    rw [dataLoaderBatches_cons 2 (by norm_num)]
    simp [dataLoaderBatches_nil]
  rw [hbatches]
  have hlab : (makeBatch [e0, e1]).labels.length = 2 := by
    simp [makeBatch]
  refine ⟨rfl, ?_, ?_⟩
  · intro b hb
    rw [List.mem_singleton.mp hb]
    exact hlab
  · have hex : numExamples [makeBatch [e0, e1]] = 2 := by
      simp [numExamples, makeBatch]
    have hcond : ¬ (([makeBatch [e0, e1]] : List Batch).length = 0 ∨
        numExamples [makeBatch [e0, e1]] = 0) := by
      rw [not_or, hex]
      exact ⟨by norm_num, by norm_num⟩
    have hcor := countCorrect_le
      (batchOutputs M p (makeBatch [e0, e1])) (makeBatch [e0, e1]).labels
    rw [hlab] at hcor
    set c := countCorrect (batchOutputs M p (makeBatch [e0, e1]))
      (makeBatch [e0, e1]).labels with hc
    have hfoldc :
        (([makeBatch [e0, e1]] : List Batch).foldl (trainStep M Opt criterion)
          ⟨p, o, g, 0, 0⟩).total_correct = c := by
      rw [hc]
      simp [trainStep]
    refine ⟨(([makeBatch [e0, e1]] : List Batch).foldl (trainStep M Opt criterion)
        ⟨p, o, g, 0, 0⟩).total_loss / (([makeBatch [e0, e1]] : List Batch).length : ℚ),
      ((([makeBatch [e0, e1]] : List Batch).foldl (trainStep M Opt criterion)
        ⟨p, o, g, 0, 0⟩).total_correct : ℚ) / (numExamples [makeBatch [e0, e1]] : ℚ),
      ?_, ?_⟩
    · show (if ([makeBatch [e0, e1]] : List Batch).length = 0 ∨
          numExamples [makeBatch [e0, e1]] = 0 then none
        else some _) = _
      rw [if_neg hcond]
    · rw [hfoldc, hex]
      interval_cases c
      · left
        norm_num
      · right
        left
        norm_num
      · right
        right
        norm_num

/-- Witness for C7, instantiating the shuffle with the identity permutation
and concrete tokenizer, model, optimizer and criterion. -/
theorem two_record_scenario_witness :
    (dataLoaderBatches 2 d2W.items).length = 1 ∧
    (∀ b ∈ dataLoaderBatches 2 d2W.items, b.labels.length = 2) ∧
    ∃ l a, (train modelW optimW critW 0 0 0 (dataLoaderBatches 2 d2W.items)).2 =
        some (l, a) ∧ (a = 0 ∨ a = 1 / 2 ∨ a = 1) :=
  two_record_scenario tokW modelW optimW critW 0 0 0 d2W.items (List.Perm.refl _)

/-! Dataset-adapter theorems. -/

/-- C5: for every record of the dataset, regardless of the original text's
length, the example returned by indexed access has token-id and
attention-mask sequences of length exactly `max_length`, produced by
truncating longer tokenizations and padding shorter ones. -/
theorem getitem_fixed_length (d : SarcasmDataset) (idx : ℕ) (e : Encoded)
    (h : d.getItem idx = some e) :
    e.input_ids.length = d.max_length ∧
      e.attention_mask.length = d.max_length := by
  unfold SarcasmDataset.getItem at h
  rcases Option.map_eq_some'.mp h with ⟨⟨text, label⟩, _, rfl⟩
  have hkept : ((tokW.clsId :: (tokW.tokenize text ++ [tokW.sepId])).take
      d.max_length).length ≤ d.max_length := by
    exact le_trans (List.length_take_le _ _) (le_refl _)
  constructor
  · show ((encodePlus d.tokenizer text d.max_length).input_ids).length = d.max_length
    unfold encodePlus
    rw [List.length_append, List.length_replicate]
    have hle : ((d.tokenizer.clsId :: (d.tokenizer.tokenize text ++
        [d.tokenizer.sepId])).take d.max_length).length ≤ d.max_length :=
      le_trans (List.length_take_le _ _) (le_refl _)
    omega
  · show ((encodePlus d.tokenizer text d.max_length).attention_mask).length = d.max_length
    unfold encodePlus
    rw [List.length_append, List.length_replicate, List.length_replicate]
    have hle : ((d.tokenizer.clsId :: (d.tokenizer.tokenize text ++
        [d.tokenizer.sepId])).take d.max_length).length ≤ d.max_length :=
      le_trans (List.length_take_le _ _) (le_refl _)
    omega

/-- Witness for C5: the single record of the concrete dataset `d5W`
(maximum length 3) encodes to sequences of length exactly 3. -/
theorem getitem_fixed_length_witness :
    e5W.input_ids.length = 3 ∧ e5W.attention_mask.length = 3 :=
  getitem_fixed_length d5W 0 e5W (by rfl)

/-! Lemmas about dataset construction. -/

/-- Spec-side predicate: the input line is not valid JSON, or its object is
missing one of the two required fields. -/
def badLine (l : RawLine) : Prop :=
  match l with
  | .malformed => True
  | .obj fields =>
    getField fields "headline" = none ∨ getField fields "is_sarcastic" = none

instance (l : RawLine) : Decidable (badLine l) := by
  unfold badLine
  cases l <;> infer_instance

lemma readLine_parse_error_iff (l : RawLine) :
    readLine l = .error InitError.parseError ↔ badLine l := by
  cases l with
  | malformed => simp [readLine, badLine]
  | obj fields =>
    unfold readLine badLine
    cases hh : getField fields "headline" <;>
      cases hs : getField fields "is_sarcastic" <;> simp [hh, hs]

lemma readLine_ok_iff (l : RawLine) :
    (∃ v, readLine l = .ok v) ↔ ¬ badLine l := by
  cases l with
  | malformed => simp [readLine, badLine]
  | obj fields =>
    unfold readLine badLine
    cases hh : getField fields "headline" <;>
      cases hs : getField fields "is_sarcastic" <;> simp [hh, hs]

lemma mapM_readLine_error :
    ∀ (lines : List RawLine), (∃ l ∈ lines, badLine l) →
      lines.mapM readLine = .error InitError.parseError
  | [], h => absurd h (by simp)
  | l :: ls, h => by
    rw [List.mapM_cons]
    by_cases hb : badLine l
    · rw [(readLine_parse_error_iff l).mpr hb]
      rfl
    · have hbad : ∃ l' ∈ ls, badLine l' := by
        rcases h with ⟨l', hmem, hb'⟩
        rcases List.mem_cons.mp hmem with rfl | hmem'
        · exact absurd hb' hb
        · exact ⟨l', hmem', hb'⟩
      rcases (readLine_ok_iff l).mpr hb with ⟨v, hv⟩
      rw [hv, mapM_readLine_error ls hbad]
      rfl

lemma mapM_readLine_ok :
    ∀ (lines : List RawLine), (∀ l ∈ lines, ¬ badLine l) →
      ∃ ds, lines.mapM readLine = .ok ds
  | [], _ => ⟨[], rfl⟩
  | l :: ls, h => by
    rcases (readLine_ok_iff l).mpr (h l (List.mem_cons_self l ls)) with ⟨v, hv⟩
    rcases mapM_readLine_ok ls (fun l' hl' => h l' (List.mem_cons_of_mem l hl'))
      with ⟨ds, hds⟩
    refine ⟨v :: ds, ?_⟩
    rw [List.mapM_cons, hv, hds]
    rfl

/-- C8: dataset-adapter construction aborts with no partial result — a
configuration-class error when the tokenizer identifier is unresolvable,
and, with the tokenizer resolved, a parse-class error whenever some input
line is not valid JSON or is missing the text field or the label field;
with the tokenizer resolved and every line well formed, construction
succeeds. -/
theorem init_dataset_errors (registry : String → Option Tokenizer)
    (tokenizer_name : String) (lines : List RawLine) :
    (registry tokenizer_name = none →
      initDataset registry tokenizer_name lines = .error .configError) ∧
    (∀ tok, registry tokenizer_name = some tok →
      ((∃ l ∈ lines, badLine l) →
        initDataset registry tokenizer_name lines = .error .parseError) ∧
      ((∀ l ∈ lines, ¬ badLine l) →
        ∃ ds, initDataset registry tokenizer_name lines = .ok (tok, ds))) := by
  constructor
  · intro hnone
    unfold initDataset
    rw [hnone]
  · intro tok htok
    constructor
    · intro hbad
      unfold initDataset
      rw [htok, mapM_readLine_error lines hbad]
      rfl
    · intro hgood
      rcases mapM_readLine_ok lines hgood with ⟨ds, hds⟩
      refine ⟨ds, ?_⟩
      unfold initDataset
      rw [htok, hds]
      rfl

/-- Witness for C8 on a concrete registry and concrete lines: an unknown
tokenizer name yields the configuration error; with the resolvable name, a
line missing the label field yields the parse error, and a well-formed line
yields a successful construction. -/
theorem init_dataset_errors_witness :
    initDataset registryW "no-such-model" [lineGoodW] = .error .configError ∧
    initDataset registryW "bert-base-uncased" [lineMissingW] = .error .parseError ∧
    ∃ ds, initDataset registryW "bert-base-uncased" [lineGoodW] = .ok (tokW, ds) := by
  refine ⟨?_, ?_, ?_⟩
  · exact (init_dataset_errors registryW "no-such-model" [lineGoodW]).1 (by rfl)
  · exact ((init_dataset_errors registryW "bert-base-uncased" [lineMissingW]).2 tokW
      (by rfl)).1 ⟨lineMissingW, by simp, by decide⟩
  · exact ((init_dataset_errors registryW "bert-base-uncased" [lineGoodW]).2 tokW
      (by rfl)).2 (by decide)

/-! Shape lemmas for the classifier heads. -/

lemma Linear.length_apply (l : Linear) (x : Vec) :
    (l.apply x).length = min l.weight.length l.bias.length := by
  unfold Linear.apply
  rw [List.length_zipWith]

lemma mapM_option_forall {α β : Type} (f : α → Option β) (Q : β → Prop) :
    ∀ (l : List α), (∀ a ∈ l, ∃ b, f a = some b ∧ Q b) →
      ∃ out, l.mapM f = some out ∧ out.length = l.length ∧ ∀ b ∈ out, Q b
  | [], _ => ⟨[], rfl, rfl, by simp⟩
  | a :: as, h => by
    rcases h a (List.mem_cons_self a as) with ⟨b, hb, hQ⟩
    rcases mapM_option_forall f Q as (fun x hx => h x (List.mem_cons_of_mem a hx))
      with ⟨out, hout, hlen, hall⟩
    refine ⟨b :: out, ?_, by simp [hlen], ?_⟩
    · rw [List.mapM_cons, hb, hout]
      rfl
    · intro b' hb'
      rcases List.mem_cons.mp hb' with rfl | hmem
      · exact hQ
      · exact hall b' hmem

lemma BertCNN.forwardOne_some (m : BertCNN) (ids mask : List ℕ)
    (hk : ∀ c ∈ m.convs, 1 ≤ c.k ∧ c.k ≤ ids.length) :
    ∃ v, m.forwardOne ids mask = some v ∧
      v.length = min m.fc.weight.length m.fc.bias.length := by
  have hx : (m.bert.lastHidden ids mask).length = ids.length :=
    m.bert.lastHidden_len ids mask
  have hconvs : ∀ c ∈ m.convs, ∃ w,
      c.reluPool (m.bert.lastHidden ids mask) = some w ∧ True := by
    intro c hc
    unfold Conv2dBank.reluPool
    rw [if_pos (by rw [hx]; exact hk c hc)]
    exact ⟨_, rfl, trivial⟩
  rcases mapM_option_forall _ _ m.convs hconvs with ⟨feats, hfeats, _, _⟩
  refine ⟨m.fc.apply feats.flatten, ?_, Linear.length_apply _ _⟩
  simp only [BertCNN.forwardOne]
  rw [hfeats]
  rfl

/-- C6 (amended): for a batch of token-id and attention-mask tensors of
identical shape `(B, L)`, the MLP, LSTM and RNN heads return logits of
shape `(B, num_classes)` unconditionally, and the convolutional head does
so provided `L` is at least every convolution filter width (for smaller
`L` the convolution itself raises, producing no logits tensor — see the
counterexample). `num_classes` enters as the row/entry count of each
head's final linear layer. -/
theorem forward_logits_shape {σ : Type} (B L nc : ℕ)
    (mC : BertCNN) (mM : BertMLP) (mL : BertLSTM σ) (mR : BertRNN σ)
    (input_ids attention_mask : List (List ℕ))
    (hB1 : input_ids.length = B) (hB2 : attention_mask.length = B)
    (hL1 : ∀ r ∈ input_ids, r.length = L)
    (hL2 : ∀ r ∈ attention_mask, r.length = L)
    (hCfc : mC.fc.weight.length = nc ∧ mC.fc.bias.length = nc)
    (hMfc : mM.fc2.weight.length = nc ∧ mM.fc2.bias.length = nc)
    (hLfc : mL.fc.weight.length = nc ∧ mL.fc.bias.length = nc)
    (hRfc : mR.fc.weight.length = nc ∧ mR.fc.bias.length = nc)
    (hK : ∀ c ∈ mC.convs, 1 ≤ c.k ∧ c.k ≤ L) :
    shape2 (mM.forward input_ids attention_mask) B nc ∧
    shape2 (mL.forward input_ids attention_mask) B nc ∧
    shape2 (mR.forward input_ids attention_mask) B nc ∧
    ∃ out, mC.forward input_ids attention_mask = some out ∧ shape2 out B nc := by
  have hzip : (List.zip input_ids attention_mask).length = B := by
    rw [List.length_zip, hB1, hB2, min_self]
  refine ⟨⟨?_, ?_⟩, ⟨?_, ?_⟩, ⟨?_, ?_⟩, ?_⟩
  · unfold BertMLP.forward
    rw [List.length_map, hzip]
  · intro r hr
    rcases List.mem_map.mp hr with ⟨p, _, rfl⟩
    unfold BertMLP.forwardOne
    rw [Linear.length_apply, hMfc.1, hMfc.2, min_self]
  · unfold BertLSTM.forward
    rw [List.length_map, hzip]
  · intro r hr
    rcases List.mem_map.mp hr with ⟨p, _, rfl⟩
    unfold BertLSTM.forwardOne
    rw [Linear.length_apply, hLfc.1, hLfc.2, min_self]
  · unfold BertRNN.forward
    rw [List.length_map, hzip]
  · intro r hr
    rcases List.mem_map.mp hr with ⟨p, _, rfl⟩
    unfold BertRNN.forwardOne
    rw [Linear.length_apply, hRfc.1, hRfc.2, min_self]
  · have hrows : ∀ p ∈ List.zip input_ids attention_mask, ∃ v,
        mC.forwardOne p.1 p.2 = some v ∧ v.length = nc := by
      intro p hp
      have hids : p.1 ∈ input_ids := (List.of_mem_zip hp).1
      have hlen : p.1.length = L := hL1 p.1 hids
      rcases mC.forwardOne_some p.1 p.2
        (fun c hc => by rw [hlen]; exact hK c hc) with ⟨v, hv, hvlen⟩
      exact ⟨v, hv, by rw [hvlen, hCfc.1, hCfc.2, min_self]⟩
    rcases mapM_option_forall _ _ (List.zip input_ids attention_mask) hrows
      with ⟨out, hout, hlen, hall⟩
    exact ⟨out, hout, by rw [hlen, hzip], hall⟩

/-- C6 counterexample to the claim as stated: on a batch of shape
`(B, L) = (1, 1)` the convolutional head produces no logits tensor at all —
the convolution with filter width 3 cannot be applied to a length-1 token
dimension (torch raises a size error), refuting the unconditional shape
claim for all `(B, L)`. -/
theorem forward_logits_shape_counterexample :
    cnnW.forward [[0]] [[1]] = none := by
  rfl

/-- Witness for C6 (amended) on concrete heads with two classes and a
batch of shape `(1, 5)`. -/
theorem forward_logits_shape_witness :
    shape2 (mlpW.forward [[0, 0, 0, 0, 0]] [[1, 1, 1, 1, 1]]) 1 2 ∧
    shape2 (lstmW.forward [[0, 0, 0, 0, 0]] [[1, 1, 1, 1, 1]]) 1 2 ∧
    shape2 (rnnW.forward [[0, 0, 0, 0, 0]] [[1, 1, 1, 1, 1]]) 1 2 ∧
    ∃ out, cnnW.forward [[0, 0, 0, 0, 0]] [[1, 1, 1, 1, 1]] = some out ∧
      shape2 out 1 2 :=
  forward_logits_shape 1 5 2 cnnW mlpW lstmW rnnW
    [[0, 0, 0, 0, 0]] [[1, 1, 1, 1, 1]]
    rfl rfl
    (by intro r hr; rw [List.mem_singleton.mp hr]; simp)
    (by intro r hr; rw [List.mem_singleton.mp hr]; simp)
    ⟨rfl, rfl⟩ ⟨rfl, rfl⟩ ⟨rfl, rfl⟩ ⟨rfl, rfl⟩
    (by
      intro c hc
      rw [List.mem_singleton.mp hc]
      exact ⟨by norm_num, by norm_num⟩)

end Bertcls
